import Mathlib

/-!
Verification of the EagleView repository (fetch_v3_verify_items.py and
api_server.py) against its natural-language specification.

The Python code is shallowly embedded: issue records (nested JSON
dictionaries coming from the GraphQL API) become Lean structures, the
pagination loop becomes structural recursion over the list of server
responses, and the HTTP handlers become pure functions from their
request data and the outcome of the one external call to the response
they write.  Python dictionary fields that the code distinguishes
three ways (key absent / key present with value None / key present
with a value) are modelled with the `PyField` type below; exceptions
the Python code can raise are modelled with `Except String`.
-/

/-- A Python dict field as the source distinguishes it: the key can be
absent, present with value `None` (JSON null), or present with a value. -/
inductive PyField (α : Type) where
  | absent
  | null
  | val (a : α)
deriving DecidableEq, Repr

/-- A label node as read by the code: only `name` is ever accessed
(`label['name']` in main's filters, `label.get('name', '')` in the CSV
export); `id` and `color` are fetched but never read, so they are not
modelled. -/
structure Label where
  name : PyField String
deriving DecidableEq, Repr

/-- The `labels` connection: `issue.get('labels', {}).get('nodes', [])`. -/
structure LabelsConn where
  nodes : PyField (List Label)
deriving DecidableEq, Repr

/-- `issue['state']` / `issue['team']` style sub-objects: only `name` is
read, with `.get('name', '')`, so absent and null names both print as "". -/
structure NamedObj where
  name : Option String
deriving DecidableEq, Repr

/-- `issue['assignee']`: only `displayName` is read and the access is
guarded by Python truthiness (`if issue.get('assignee')`), so absent,
null and empty-dict assignees all behave the same; `none` covers them. -/
structure AssigneeObj where
  displayName : Option String
deriving DecidableEq, Repr

/-- An issue record as consumed by the fetcher.  `id` is accessed with
`issue['id']` (required), the scalar fields with `.get(k, '')` where a
null value is later written by the csv module as the empty string, so
`Option String` with `none` for absent-or-null is faithful for them.
`state`, `team` and `labels` keep the three-way `PyField` distinction
because the code treats an absent key (default `{}`) differently from a
null value (which raises).  `assignee`, `project` and `cycle` are
truthiness-guarded, so `Option` suffices. -/
structure Issue where
  id : String
  identifier : Option String
  title : Option String
  url : Option String
  state : PyField NamedObj
  priorityLabel : Option String
  estimate : Option String
  assignee : Option AssigneeObj
  team : PyField NamedObj
  project : Option NamedObj
  cycle : Option NamedObj
  labels : PyField LabelsConn
  createdAt : Option String
  updatedAt : Option String
  dueDate : Option String
deriving DecidableEq, Repr

/-! ## The merge step of `main` (fetch_v3_verify_items.py lines 504-507)

`issues_dict = {}` followed by `issues_dict[issue['id']] = issue` over
the concatenation of the two lists, then `issues_dict.values()`.  A
Python dict keeps keys in insertion order and an assignment to an
existing key replaces the value in place, which `dictUpd` mirrors on an
association list. -/

/-- One `issues_dict[k] = v` assignment on an insertion-ordered dict. -/
def dictUpd (m : List (String × Issue)) (k : String) (v : Issue) :
    List (String × Issue) :=
  if m.any (fun p => decide (p.1 = k)) then
    m.map (fun p => if p.1 = k then (k, v) else p)
  else
    m ++ [(k, v)]

/-- The dict built by `for issue in ...: issues_dict[issue['id']] = issue`. -/
def buildDict (l : List Issue) : List (String × Issue) :=
  l.foldl (fun m i => dictUpd m i.id i) []

/-- `list(issues_dict.values())` for the dict built from
`preprod_issues_filtered + blocker_issues`. -/
def mergeIssues (pre bl : List Issue) : List Issue :=
  (buildDict (pre ++ bl)).map Prod.snd

section MergeLemmas

/-- Updating an existing key leaves the key list unchanged. -/
lemma dictUpd_keys_map (k : String) (v : Issue) (m : List (String × Issue)) :
    (m.map (fun p => if p.1 = k then (k, v) else p)).map Prod.fst =
      m.map Prod.fst := by
  induction m with
  | nil => rfl
  | cons q qs ih =>
      by_cases hq : q.1 = k
      · simp only [List.map_cons, if_pos hq, ih]
        simp [hq]
      · simp only [List.map_cons, if_neg hq, ih]

/-- The full invariant of the merge dict, proved by induction from the
right over the processed list: keys are distinct, every entry's stored
issue has the entry's key as its id, the stored issue is the last
occurrence of that id in the input, and every input issue's id is a key. -/
lemma buildDict_spec (l : List Issue) :
    ((buildDict l).map Prod.fst).Nodup ∧
    (∀ p ∈ buildDict l, p.2.id = p.1 ∧
        (l.filter (fun j => decide (j.id = p.1))).getLast? = some p.2) ∧
    (∀ i ∈ l, ∃ p ∈ buildDict l, p.1 = i.id) := by
  induction l using List.reverseRecOn with
  | nil => refine ⟨by simp [buildDict], by simp [buildDict], by simp⟩
  | append_singleton l x ih =>
      obtain ⟨hnd, hchar, hpres⟩ := ih
      have hfold : buildDict (l ++ [x]) = dictUpd (buildDict l) x.id x := by
        simp [buildDict, List.foldl_append]
      have hfilter_hit : (l ++ [x]).filter (fun j => decide (j.id = x.id)) =
          l.filter (fun j => decide (j.id = x.id)) ++ [x] := by
        simp [List.filter_append]
      have hfilter_miss : ∀ k : String, x.id ≠ k →
          (l ++ [x]).filter (fun j => decide (j.id = k)) =
            l.filter (fun j => decide (j.id = k)) := by
        intro k hk
        simp [List.filter_append, hk]
      by_cases hin : ((buildDict l).any (fun p => decide (p.1 = x.id)) = true)
      · -- key already present: in-place replacement
        have hD' : buildDict (l ++ [x]) =
            (buildDict l).map (fun p => if p.1 = x.id then (x.id, x) else p) := by
          rw [hfold, dictUpd, if_pos hin]
        refine ⟨?_, ?_, ?_⟩
        · rw [hD', dictUpd_keys_map]; exact hnd
        · intro p hp
          rw [hD'] at hp
          obtain ⟨q, hq, hqp⟩ := List.mem_map.1 hp
          by_cases hqk : q.1 = x.id
          · rw [if_pos hqk] at hqp
            subst hqp
            exact ⟨rfl, by simp [hfilter_hit]⟩
          · rw [if_neg hqk] at hqp
            subst hqp
            obtain ⟨hid, hlast⟩ := hchar q hq
            exact ⟨hid, by rw [hfilter_miss q.1 (fun h => hqk h.symm)]; exact hlast⟩
        · intro i hi
          rcases List.mem_append.1 hi with hil | hix
          · obtain ⟨p, hp, hpk⟩ := hpres i hil
            refine ⟨if p.1 = x.id then (x.id, x) else p, ?_, ?_⟩
            · rw [hD']; exact List.mem_map.2 ⟨p, hp, rfl⟩
            · by_cases hpx : p.1 = x.id
              · rw [if_pos hpx, ← hpx, hpk]
              · rw [if_neg hpx]; exact hpk
          · have hxi : i = x := by simpa using hix
            subst hxi
            obtain ⟨q, hq, hqk⟩ := List.any_eq_true.1 hin
            have hqk' : q.1 = i.id := by simpa using hqk
            refine ⟨(i.id, i), ?_, rfl⟩
            rw [hD']
            exact List.mem_map.2 ⟨q, hq, by rw [if_pos hqk']⟩
      · -- new key: appended at the end
        have hnotin : ∀ q ∈ buildDict l, q.1 ≠ x.id := by
          intro q hq hqx
          exact hin (List.any_eq_true.2 ⟨q, hq, by simpa using hqx⟩)
        have hD' : buildDict (l ++ [x]) = buildDict l ++ [(x.id, x)] := by
          rw [hfold, dictUpd, if_neg hin]
        refine ⟨?_, ?_, ?_⟩
        · rw [hD', List.map_append]
          refine List.Nodup.append hnd (by simp) ?_
          intro a ha hb
          simp only [List.map_cons, List.map_nil, List.mem_singleton] at hb
          obtain ⟨q, hq, hqa⟩ := List.mem_map.1 ha
          exact hnotin q hq (by rw [hqa, hb])
        · intro p hp
          rw [hD'] at hp
          rcases List.mem_append.1 hp with hpD | hpx
          · obtain ⟨hid, hlast⟩ := hchar p hpD
            exact ⟨hid, by
              rw [hfilter_miss p.1 (fun h => hnotin p hpD h.symm)]; exact hlast⟩
          · have hpx' : p = (x.id, x) := by simpa using hpx
            subst hpx'
            exact ⟨rfl, by simp [hfilter_hit]⟩
        · intro i hi
          rcases List.mem_append.1 hi with hil | hix
          · obtain ⟨p, hp, hpk⟩ := hpres i hil
            exact ⟨p, by rw [hD']; exact List.mem_append_left _ hp, hpk⟩
          · have hxi : i = x := by simpa using hix
            subst hxi
            exact ⟨(i.id, i),
              by rw [hD']; exact List.mem_append_right _ (by simp), rfl⟩

end MergeLemmas

/-! ## The 'launched' exclusion filter of `main` (lines 491-497 and 509-514)

`[issue for issue in ... if not any(label['name'].lower() == 'launched'
for label in issue.get('labels', {}).get('nodes', []))]`.  The generator
inside `any` short-circuits, indexes `label['name']` directly (KeyError
when absent, AttributeError on `None.lower()`), and the surrounding
list comprehension propagates any such exception. -/

/-- Python's `str.lower()`, character by character (label names here
are ASCII, where per-character lowercasing coincides with Python's). -/
def pyLower (s : String) : String := String.mk (s.data.map Char.toLower)

/-- `label['name'].lower() == 'launched'` for one label node. -/
def labelIsLaunched (l : Label) : Except String Bool :=
  match l.name with
  | .val n => .ok (decide (pyLower n = "launched"))
  | .absent => .error "KeyError: name"
  | .null => .error "AttributeError: NoneType has no attribute lower"

/-- `any(... for label in nodes)` with Python short-circuiting. -/
def anyLaunched : List Label → Except String Bool
  | [] => .ok false
  | l :: ls =>
      match labelIsLaunched l with
      | .error e => .error e
      | .ok true => .ok true
      | .ok false => anyLaunched ls

/-- `issue.get('labels', {}).get('nodes', [])`: an absent `labels` key
defaults to `{}` (so `nodes` defaults to `[]`), while a null value for
either key raises. -/
def issueLabelNodes (i : Issue) : Except String (List Label) :=
  match i.labels with
  | .absent => .ok []
  | .null => .error "AttributeError: NoneType has no attribute get"
  | .val c =>
      match c.nodes with
      | .absent => .ok []
      | .null => .error "TypeError: NoneType is not iterable"
      | .val ls => .ok ls

/-- Whether an issue carries a label whose lowercased name is 'launched'. -/
def hasLaunched (i : Issue) : Except String Bool :=
  match issueLabelNodes i with
  | .error e => .error e
  | .ok ls => anyLaunched ls

/-- The list comprehension dropping launched issues, evaluated left to
right with exception propagation. -/
def filterNotLaunched : List Issue → Except String (List Issue)
  | [] => .ok []
  | i :: is =>
      match hasLaunched i with
      | .error e => .error e
      | .ok b =>
          match filterNotLaunched is with
          | .error e => .error e
          | .ok rest => .ok (if b then rest else i :: rest)

/-- The merge-and-filter pipeline of `main` (lines 491-514): filter the
preprod list, merge with the blocker list by id, filter again. -/
def mainPipeline (preprod blockers : List Issue) : Except String (List Issue) :=
  match filterNotLaunched preprod with
  | .error e => .error e
  | .ok pre => filterNotLaunched (mergeIssues pre blockers)

section FilterLemmas

/-- When the launched filter succeeds, its output is exactly the
non-launched members of its input. -/
lemma filterNotLaunched_mem :
    ∀ l out, filterNotLaunched l = Except.ok out →
      (∀ i ∈ out, i ∈ l ∧ hasLaunched i = Except.ok false) ∧
      (∀ i ∈ l, hasLaunched i = Except.ok false → i ∈ out) := by
  intro l
  induction l with
  | nil =>
      intro out h
      simp only [filterNotLaunched, Except.ok.injEq] at h
      subst h
      exact ⟨by simp, by simp⟩
  | cons i is ih =>
      intro out h
      cases hb : hasLaunched i with
      | error e => simp [filterNotLaunched, hb] at h
      | ok b =>
          cases hr : filterNotLaunched is with
          | error e => simp [filterNotLaunched, hb, hr] at h
          | ok rest =>
              have hout : out = if b then rest else i :: rest := by
                simp [filterNotLaunched, hb, hr] at h
                exact h.symm
              obtain ⟨ih1, ih2⟩ := ih rest hr
              cases b with
              | true =>
                  subst hout
                  refine ⟨?_, ?_⟩
                  · intro j hj
                    exact ⟨List.mem_cons_of_mem _ (ih1 j (by simpa using hj)).1,
                      (ih1 j (by simpa using hj)).2⟩
                  · intro j hj hjf
                    rcases List.mem_cons.1 hj with hji | hjs
                    · subst hji; rw [hb] at hjf; cases hjf
                    · simpa using ih2 j hjs hjf
              | false =>
                  subst hout
                  refine ⟨?_, ?_⟩
                  · intro j hj
                    rcases List.mem_cons.1 (by simpa using hj) with hji | hjr
                    · subst hji; exact ⟨List.mem_cons_self _ _, hb⟩
                    · exact ⟨List.mem_cons_of_mem _ (ih1 j hjr).1, (ih1 j hjr).2⟩
                  · intro j hj hjf
                    rcases List.mem_cons.1 hj with hji | hjs
                    · subst hji; exact List.mem_cons_self _ _
                    · exact List.mem_cons_of_mem _ (ih2 j hjs hjf)

end FilterLemmas

/-- Claim C1: the merge step of `main` deduplicates by issue id.  The
merged value list (`issues_dict.values()`) carries pairwise-distinct
ids, and the record stored under an id is the last occurrence of that
id in the concatenated input `preprod_issues_filtered + blocker_issues`
(later occurrences replace earlier ones). -/
theorem merge_removes_duplicate_ids (pre bl : List Issue) :
    ((mergeIssues pre bl).map Issue.id).Nodup ∧
    ∀ v ∈ mergeIssues pre bl,
      ((pre ++ bl).filter (fun j => decide (j.id = v.id))).getLast? = some v := by
  obtain ⟨hnd, hchar, _⟩ := buildDict_spec (pre ++ bl)
  constructor
  · have hkeys : (mergeIssues pre bl).map Issue.id =
        (buildDict (pre ++ bl)).map Prod.fst := by
      rw [mergeIssues, List.map_map]
      exact List.map_congr_left (fun p hp => (hchar p hp).1)
    rw [hkeys]; exact hnd
  · intro v hv
    obtain ⟨p, hp, hpv⟩ := List.mem_map.1 hv
    obtain ⟨hid, hlast⟩ := hchar p hp
    have hv2 : p.2 = v := hpv
    subst hv2
    rw [hid]
    exact hlast

/-- A record with every optional field missing, used to build concrete
test issues. -/
def blankIssue : Issue :=
  ⟨"", none, none, none, .absent, none, none, none, .absent, none, none,
    .absent, none, none, none⟩

/-- Concrete issue with id "a" and no labels. -/
def issueA : Issue := { blankIssue with id := "a" }

/-- Concrete issue with id "b" and no labels. -/
def issueB : Issue := { blankIssue with id := "b" }

/-- A second record with id "a", distinguishable from `issueA`. -/
def issueA2 : Issue := { blankIssue with id := "a", title := some "t2" }

/-- Witness for C1: on a concrete input where id "a" occurs in both
lists, the merged list is duplicate-free and the record kept under "a"
is the later occurrence. -/
theorem merge_removes_duplicate_ids_witness :
    ((mergeIssues [issueA, issueB] [issueA2]).map Issue.id).Nodup ∧
    (([issueA, issueB] ++ [issueA2]).filter
        (fun j => decide (j.id = issueA2.id))).getLast? = some issueA2 := by
  obtain ⟨h1, h2⟩ := merge_removes_duplicate_ids [issueA, issueB] [issueA2]
  exact ⟨h1, h2 issueA2 (by decide)⟩

/-- Concrete issue with id "a" carrying a label named "Launched". -/
def issueLaunchedA : Issue :=
  { blankIssue with id := "a", labels := .val ⟨.val [⟨.val "Launched"⟩]⟩ }

/-- Claim C2 counterexample: `issueA` carries no launched label, yet
the pipeline output for `preprod = [issueA]`, `blockers =
[issueLaunchedA]` is empty — during the merge the launched blocker
record replaces `issueA` under the shared id "a" and is then filtered
out, so an issue without the exclusion label is not kept. -/
theorem launched_filter_drop_counterexample :
    hasLaunched issueA = Except.ok false ∧
    mainPipeline [issueA] [issueLaunchedA] = Except.ok [] := by
  constructor <;> rfl

/-- Claim C2 (amended): whenever main's pipeline succeeds, its output
contains no issue carrying a label lowercasing to 'launched'; and,
provided any two input issues with the same id are identical records,
every input issue without such a label is kept. -/
theorem launched_filter_correct (preprod blockers out : List Issue)
    (h : mainPipeline preprod blockers = Except.ok out) :
    (∀ i ∈ out, hasLaunched i = Except.ok false) ∧
    ((∀ i ∈ preprod ++ blockers, ∀ j ∈ preprod ++ blockers,
        i.id = j.id → i = j) →
      ∀ i ∈ preprod ++ blockers, hasLaunched i = Except.ok false → i ∈ out) := by
  rw [mainPipeline] at h
  cases hpre : filterNotLaunched preprod with
  | error e => rw [hpre] at h; cases h
  | ok pre =>
      rw [hpre] at h
      obtain ⟨hfin1, hfin2⟩ := filterNotLaunched_mem _ _ h
      obtain ⟨hpre1, hpre2⟩ := filterNotLaunched_mem _ _ hpre
      refine ⟨fun i hi => (hfin1 i hi).2, ?_⟩
      intro huniq i hi hif
      -- i survives the preprod pre-filter (or came from the blocker list)
      have hi' : i ∈ pre ++ blockers := by
        rcases List.mem_append.1 hi with hip | hib
        · exact List.mem_append_left _ (hpre2 i hip hif)
        · exact List.mem_append_right _ hib
      -- the merge keeps a record with i's id, namely the last occurrence
      obtain ⟨_, hchar, hpres⟩ := buildDict_spec (pre ++ blockers)
      obtain ⟨p, hp, hpk⟩ := hpres i hi'
      obtain ⟨hid, hlast⟩ := hchar p hp
      -- that record is i itself, by the uniqueness hypothesis
      have hsub : ∀ j, j ∈ pre ++ blockers → j ∈ preprod ++ blockers := by
        intro j hj
        rcases List.mem_append.1 hj with hjp | hjb
        · exact List.mem_append_left _ (hpre1 j hjp).1
        · exact List.mem_append_right _ hjb
      have hp2mem : p.2 ∈ (pre ++ blockers).filter
          (fun j => decide (j.id = p.1)) := List.mem_of_mem_getLast? hlast
      obtain ⟨hp2l, _⟩ := List.mem_filter.1 hp2mem
      have hp2i : p.2 = i := by
        refine huniq p.2 (hsub _ hp2l) i (hsub _ hi') ?_
        rw [hid, hpk]
      have himerge : i ∈ mergeIssues pre blockers := by
        rw [mergeIssues]
        exact List.mem_map.2 ⟨p, hp, hp2i⟩
      exact hfin2 i himerge hif

/-- Witness for C2 (amended): the singleton run `preprod = [issueA]`,
`blockers = []` succeeds with output `[issueA]`, the output is free of
launched labels, and `issueA` is kept. -/
theorem launched_filter_correct_witness :
    hasLaunched issueA = Except.ok false ∧ issueA ∈ [issueA] := by
  have h := launched_filter_correct [issueA] [] [issueA] (by rfl)
  exact ⟨h.1 issueA (by decide), h.2 (by decide) issueA (by decide) (by rfl)⟩

/-! ## CSV and JSON export (fetch_v3_verify_items.py lines 368-421)

`export_to_csv` returns `None` without creating a file when the issue
list is empty; otherwise it writes a header row of fourteen fixed
column names followed by one row per issue.  `export_to_json` always
writes the list (serialised verbatim) and returns the filename.  A
file is modelled by the pair (name, rows written); an exception raised
while building a row is modelled with `Except.error`. -/

/-- The `fieldnames` list of `export_to_csv`. -/
def fieldnames : List String :=
  ["identifier", "title", "url", "state", "priority", "estimate",
   "assignee", "team", "project", "cycle", "labels",
   "created_at", "updated_at", "due_date"]

/-- `issue.get('state', {}).get('name', '')` (same shape for `team`):
an absent key defaults to `{}` hence `''`; a null value raises; a
present object yields its name, with absent-or-null name printed as
the empty string by the csv module. -/
def pyGetName (f : PyField NamedObj) : Except String String :=
  match f with
  | .absent => .ok ""
  | .null => .error "AttributeError: NoneType has no attribute get"
  | .val o => .ok (o.name.getD "")

/-- `[label.get('name', '') for label in nodes]` followed by
`', '.join(...)`: an absent name defaults to `''`, a null name puts
`None` in the list and makes `join` raise. -/
def labelNamesForCsv : List Label → Except String (List String)
  | [] => .ok []
  | l :: ls =>
      match l.name with
      | .null => .error "TypeError: sequence item: expected str, NoneType found"
      | .absent =>
          match labelNamesForCsv ls with
          | .error e => .error e
          | .ok ns => .ok ("" :: ns)
      | .val n =>
          match labelNamesForCsv ls with
          | .error e => .error e
          | .ok ns => .ok (n :: ns)

/-- `', '.join(names)`. -/
def joinComma : List String → String
  | [] => ""
  | [s] => s
  | s :: rest => s ++ ", " ++ joinComma rest

/-- The `labels` cell: `', '.join([label.get('name', '') for label in
issue.get('labels', {}).get('nodes', [])])`. -/
def joinedLabels (f : PyField LabelsConn) : Except String String :=
  match f with
  | .absent => .ok ""
  | .null => .error "AttributeError: NoneType has no attribute get"
  | .val c =>
      match c.nodes with
      | .absent => .ok ""
      | .null => .error "TypeError: NoneType is not iterable"
      | .val ls =>
          match labelNamesForCsv ls with
          | .error e => .error e
          | .ok ns => .ok (joinComma ns)

/-- The fourteen cells of one CSV data row, given the values of the
three raise-capable cells. -/
def csvCells (i : Issue) (st tm lbls : String) : List String :=
  [i.identifier.getD "", i.title.getD "", i.url.getD "", st,
   i.priorityLabel.getD "", i.estimate.getD "",
   (match i.assignee with | none => "" | some a => a.displayName.getD ""),
   tm,
   (match i.project with | none => "" | some p => p.name.getD ""),
   (match i.cycle with | none => "" | some c => c.name.getD ""),
   lbls, i.createdAt.getD "", i.updatedAt.getD "", i.dueDate.getD ""]

/-- One data row of `export_to_csv`, in the dict's evaluation order
(the three raise-capable cells are sequenced as they appear). -/
def csvRow (i : Issue) : Except String (List String) :=
  match pyGetName i.state with
  | .error e => .error e
  | .ok st =>
      match pyGetName i.team with
      | .error e => .error e
      | .ok tm =>
          match joinedLabels i.labels with
          | .error e => .error e
          | .ok lbls => .ok (csvCells i st tm lbls)

/-- The data rows, written one issue at a time. -/
def rowsOf : List Issue → Except String (List (List String))
  | [] => .ok []
  | i :: is =>
      match csvRow i with
      | .error e => .error e
      | .ok r =>
          match rowsOf is with
          | .error e => .error e
          | .ok rs => .ok (r :: rs)

/-- `export_to_csv`: `None` (no file) on an empty list, otherwise the
file (default timestamped name) holding the header row and the data
rows.  A row exception aborts the export (`Except.error`). -/
def export_to_csv (issues : List Issue) (filename : Option String)
    (ts : String) : Except String (Option (String × List (List String))) :=
  if issues.isEmpty then .ok none
  else
    match rowsOf issues with
    | .error e => .error e
    | .ok rows =>
        .ok (some (filename.getD ("linear_view_issues_" ++ ts ++ ".csv"),
          fieldnames :: rows))

/-- `export_to_json`: always writes the list verbatim (the empty list
becomes the empty JSON array) and returns the filename. -/
def export_to_json (issues : List Issue) (filename : Option String)
    (ts : String) : String × List Issue :=
  (filename.getD ("linear_view_issues_" ++ ts ++ ".json"), issues)

/-- A sub-object field the CSV export can read without raising. -/
def fieldReady {α : Type} : PyField α → Bool
  | .null => false
  | _ => true

/-- A `labels` field the CSV export can serialise without raising. -/
def labelsReady : PyField LabelsConn → Bool
  | .null => false
  | .absent => true
  | .val c =>
      match c.nodes with
      | .null => false
      | .absent => true
      | .val ls => ls.all (fun l => fieldReady l.name)

/-- An issue the CSV export can serialise without raising: `state`,
`team`, `labels`, the node list and every label name are non-null
(absent is fine). -/
def csvReady (i : Issue) : Bool :=
  fieldReady i.state && fieldReady i.team && labelsReady i.labels

section CsvLemmas

lemma pyGetName_ok (f : PyField NamedObj) (h : fieldReady f = true) :
    ∃ s, pyGetName f = Except.ok s := by
  cases f with
  | null => simp [fieldReady] at h
  | absent => exact ⟨"", rfl⟩
  | val o => exact ⟨o.name.getD "", rfl⟩

lemma labelNamesForCsv_ok :
    ∀ ls : List Label, ls.all (fun l => fieldReady l.name) = true →
      ∃ ns, labelNamesForCsv ls = Except.ok ns := by
  intro ls
  induction ls with
  | nil => exact fun _ => ⟨[], rfl⟩
  | cons l ls ih =>
      intro h
      rw [List.all_cons, Bool.and_eq_true] at h
      obtain ⟨hl, hls⟩ := h
      obtain ⟨ns, hns⟩ := ih hls
      cases hn : l.name with
      | null => rw [hn] at hl; simp [fieldReady] at hl
      | absent => exact ⟨"" :: ns, by rw [labelNamesForCsv, hn, hns]⟩
      | val n => exact ⟨n :: ns, by rw [labelNamesForCsv, hn, hns]⟩

lemma joinedLabels_ok (f : PyField LabelsConn) (h : labelsReady f = true) :
    ∃ s, joinedLabels f = Except.ok s := by
  cases f with
  | null => simp [labelsReady] at h
  | absent => exact ⟨"", rfl⟩
  | val c =>
      rw [labelsReady] at h
      cases hnd : c.nodes with
      | null => rw [hnd] at h; simp at h
      | absent => exact ⟨"", by rw [joinedLabels, hnd]⟩
      | val ls =>
          rw [hnd] at h
          obtain ⟨ns, hns⟩ := labelNamesForCsv_ok ls (by simpa using h)
          exact ⟨joinComma ns, by rw [joinedLabels, hnd]; simp [hns]⟩

/-- A serialisable issue yields a row of exactly fourteen cells. -/
lemma csvRow_ok_of_ready (i : Issue) (h : csvReady i = true) :
    ∃ r, csvRow i = Except.ok r ∧ r.length = 14 := by
  rw [csvReady, Bool.and_eq_true, Bool.and_eq_true] at h
  obtain ⟨⟨hst, htm⟩, hlb⟩ := h
  obtain ⟨st, hst'⟩ := pyGetName_ok _ hst
  obtain ⟨tm, htm'⟩ := pyGetName_ok _ htm
  obtain ⟨lbls, hlb'⟩ := joinedLabels_ok _ hlb
  exact ⟨csvCells i st tm lbls, by rw [csvRow, hst', htm', hlb'], rfl⟩

/-- On an all-serialisable input, row production succeeds with one row
of fourteen cells per issue. -/
lemma rowsOf_ok_of_ready :
    ∀ issues : List Issue, (∀ i ∈ issues, csvReady i = true) →
      ∃ rows, rowsOf issues = Except.ok rows ∧
        rows.length = issues.length ∧ ∀ r ∈ rows, r.length = 14 := by
  intro issues
  induction issues with
  | nil => exact fun _ => ⟨[], rfl, rfl, by simp⟩
  | cons i is ih =>
      intro hall
      obtain ⟨r, hr, hrl⟩ := csvRow_ok_of_ready i (hall i (List.mem_cons_self _ _))
      obtain ⟨rs, hrs, hrsl, hrsall⟩ :=
        ih (fun j hj => hall j (List.mem_cons_of_mem _ hj))
      refine ⟨r :: rs, by rw [rowsOf, hr, hrs], by simp [hrsl], ?_⟩
      intro q hq
      rcases List.mem_cons.1 hq with hqr | hqs
      · subst hqr; exact hrl
      · exact hrsall q hqs

end CsvLemmas

/-- Claim C3 (amended): on every non-empty list of issues whose
`state`, `team` and `labels` fields (and label names) are not null,
`export_to_csv` writes one header row and one data row per issue, each
with exactly the fourteen fixed columns; missing fields become the
empty string, as the all-absent record shows. -/
theorem csv_fixed_columns (issues : List Issue) (fn : Option String)
    (ts : String) (hne : issues ≠ [])
    (hsafe : ∀ i ∈ issues, csvReady i = true) :
    (∃ rows, export_to_csv issues fn ts =
        Except.ok (some (fn.getD ("linear_view_issues_" ++ ts ++ ".csv"),
          fieldnames :: rows)) ∧
      rows.length = issues.length ∧ ∀ r ∈ rows, r.length = 14) ∧
    fieldnames.length = 14 ∧
    csvRow blankIssue = Except.ok (List.replicate 14 "") := by
  obtain ⟨rows, hrows, hlen, hall⟩ := rowsOf_ok_of_ready issues hsafe
  have hempty : issues.isEmpty = false := by
    cases issues with
    | nil => exact absurd rfl hne
    | cons i is => rfl
  refine ⟨⟨rows, ?_, hlen, hall⟩, rfl, rfl⟩
  rw [export_to_csv, hempty, hrows]
  rfl

/-- Witness for C3 (amended): a concrete one-issue export. -/
theorem csv_fixed_columns_witness :
    (∃ rows, export_to_csv [issueA] none "t" =
        Except.ok (some ((none : Option String).getD
            ("linear_view_issues_" ++ "t" ++ ".csv"),
          fieldnames :: rows)) ∧
      rows.length = [issueA].length ∧ ∀ r ∈ rows, r.length = 14) ∧
    fieldnames.length = 14 ∧
    csvRow blankIssue = Except.ok (List.replicate 14 "") :=
  csv_fixed_columns [issueA] none "t" (by simp) (by decide)

/-- An issue whose `state` field is present but null. -/
def issueNullState : Issue := { blankIssue with id := "x", state := .null }

/-- Claim C3 counterexample: on a record whose `state` field is null,
`export_to_csv` raises (`None.get('name', '')` is an AttributeError)
instead of writing a row with the empty string in the state column. -/
theorem csv_null_state_counterexample :
    export_to_csv [issueNullState] none "t" =
      Except.error "AttributeError: NoneType has no attribute get" := by rfl

/-- Claim C10: `export_to_csv` returns `None` and creates no file on
the empty list, while `export_to_json` writes the given list verbatim
(the empty JSON array for the empty list) and returns its filename for
every list. -/
theorem empty_export_edge_case :
    (∀ fn ts, export_to_csv [] fn ts = Except.ok none) ∧
    (∀ issues fn ts, (export_to_json issues fn ts).2 = issues) ∧
    (∀ ts, export_to_json [] none ts =
      ("linear_view_issues_" ++ ts ++ ".json", [])) :=
  ⟨fun _ _ => rfl, fun _ _ _ => rfl, fun _ => rfl⟩

/-! ## The pagination loops (fetch_v3_verify_items.py lines 110-233, 241-366)

`get_issues_by_label` (and identically `get_issues_from_view`) loops
`while has_next_page`, requesting `min(100, max_issues -
len(all_issues))` items per page.  Each iteration consumes one server
response: on a request exception it breaks, keeping the pages fetched
so far; otherwise it extends the accumulator with the page's nodes and
continues exactly when `pageInfo.get('hasNextPage', False)` is true
and the accumulated count is still below `max_issues`.  The sequence
of server responses is the loop's input here, so one loop iteration is
one step of structural recursion over that list. -/

/-- `pageInfo`: `hasNextPage` read with `.get('hasNextPage', False)`,
`endCursor` with `.get('endCursor')`. -/
structure PageInfo where
  hasNextPage : Option Bool
  endCursor : Option String
deriving DecidableEq, Repr

/-- One successful page: `data.issues.nodes` and `data.issues.pageInfo`
(absent keys default to `{}`/`[]` via the chained `.get` calls). -/
structure Page where
  nodes : List Issue
  pageInfo : PageInfo
deriving DecidableEq, Repr

/-- A server response: a page, or a raised request/GraphQL exception. -/
abbrev PageResp := Except String Page

/-- The continue condition computed at the end of an iteration:
`page_info.get('hasNextPage', False) and len(all_issues) < max_issues`,
where `accLen` is the accumulated length after extending. -/
def contApi (max accLen : Nat) (p : Page) : Bool :=
  p.pageInfo.hasNextPage.getD false && decide (accLen < max)

/-- The `while has_next_page` loop: returns the accumulated issues and
the number of responses consumed. -/
def fetchLoop (max : Nat) : List Issue → List PageResp → List Issue × Nat
  | acc, [] => (acc, 0)
  | acc, .error _ :: _ => (acc, 1)
  | acc, .ok p :: rest =>
      if contApi max (acc ++ p.nodes).length p then
        ((fetchLoop max (acc ++ p.nodes) rest).1,
          (fetchLoop max (acc ++ p.nodes) rest).2 + 1)
      else (acc ++ p.nodes, 1)

/-- `get_issues_by_label`, as a function of the server's responses. -/
def get_issues_by_label (max : Nat) (resps : List PageResp) : List Issue :=
  (fetchLoop max [] resps).1

/-- `get_issues_from_view`: returns `[]` when the custom view lookup
found nothing, otherwise runs the same pagination loop. -/
def get_issues_from_view (view : Option NamedObj) (max : Nat)
    (resps : List PageResp) : List Issue :=
  match view with
  | none => []
  | some _ => (fetchLoop max [] resps).1

/-- How many responses the loop consumed. -/
def pagesConsumed (max : Nat) (resps : List PageResp) : Nat :=
  (fetchLoop max [] resps).2

/-- The nodes of one response (an exception contributes none). -/
def respNodes : PageResp → List Issue
  | .error _ => []
  | .ok p => p.nodes

/-- All nodes of a response list, in order. -/
def nodesOf : List PageResp → List Issue
  | [] => []
  | r :: rest => respNodes r ++ nodesOf rest

/-- Response `i` lets the loop continue, for a loop whose accumulator
held `accLen` issues before consuming the list: it is a successful page
whose `hasNextPage` is true and after which the count is below `max`. -/
def contAtFrom (max accLen : Nat) (resps : List PageResp) (i : Nat) : Prop :=
  ∃ p, resps.get? i = some (Except.ok p) ∧
    contApi max (accLen + (nodesOf (resps.take (i + 1))).length) p = true

/-- `contAtFrom` for the loop's actual empty initial accumulator. -/
def contAt (max : Nat) (resps : List PageResp) (i : Nat) : Prop :=
  contAtFrom max 0 resps i

section PaginationLemmas

lemma contAtFrom_cons_ok (max accLen : Nat) (p : Page)
    (rest : List PageResp) (i : Nat) :
    contAtFrom max accLen (Except.ok p :: rest) (i + 1) ↔
      contAtFrom max (accLen + p.nodes.length) rest i := by
  simp only [contAtFrom, List.get?_cons_succ, List.take_succ_cons, nodesOf,
    respNodes, List.length_append, Nat.add_assoc]

/-- Full characterisation of the pagination loop: the consumed count is
bounded by the available responses, the result is the concatenation of
the consumed pages' nodes appended to the accumulator, every response
before the last consumed one satisfied the continue condition, and if
the loop stopped before exhausting the responses then its last consumed
response failed the continue condition (an exception or a page with no
next page or one filling the quota). -/
lemma fetchLoop_spec (max : Nat) :
    ∀ (resps : List PageResp) (acc : List Issue),
      (fetchLoop max acc resps).2 ≤ resps.length ∧
      (fetchLoop max acc resps).1 =
        acc ++ nodesOf (resps.take (fetchLoop max acc resps).2) ∧
      (∀ i, i + 1 < (fetchLoop max acc resps).2 →
        contAtFrom max acc.length resps i) ∧
      ((fetchLoop max acc resps).2 < resps.length →
        ∃ j, (fetchLoop max acc resps).2 = j + 1 ∧
          ¬ contAtFrom max acc.length resps j) ∧
      (resps ≠ [] → 0 < (fetchLoop max acc resps).2) := by
  intro resps
  induction resps with
  | nil =>
      intro acc
      refine ⟨Nat.le_refl 0, by simp [fetchLoop, nodesOf], ?_, ?_, ?_⟩
      · intro i hi; simp [fetchLoop] at hi
      · intro h; simp [fetchLoop] at h
      · intro h; exact absurd rfl h
  | cons r rest ih =>
      intro acc
      cases r with
      | error e =>
          have hfl : fetchLoop max acc (Except.error e :: rest) = (acc, 1) := rfl
          rw [hfl]
          refine ⟨Nat.succ_le_succ (Nat.zero_le _),
            by simp [nodesOf, respNodes], ?_, ?_, fun _ => Nat.zero_lt_one⟩
          · intro i hi
            omega
          · intro _
            refine ⟨0, rfl, ?_⟩
            rintro ⟨p, hp, -⟩
            simp at hp
      | ok p =>
          cases hc : contApi max (acc ++ p.nodes).length p with
          | false =>
              have hfl : fetchLoop max acc (Except.ok p :: rest) =
                  (acc ++ p.nodes, 1) := by
                rw [fetchLoop, if_neg (by rw [hc]; simp)]
              rw [hfl]
              refine ⟨Nat.succ_le_succ (Nat.zero_le _),
                by simp [nodesOf, respNodes], ?_, ?_, fun _ => Nat.zero_lt_one⟩
              · intro i hi
                omega
              · intro _
                refine ⟨0, rfl, ?_⟩
                rintro ⟨p', hp', hc'⟩
                have hpp : p = p' := by simpa using hp'
                subst hpp
                rw [show (0 : Nat) + 1 = 1 from rfl] at hc'
                simp only [List.take_succ_cons, List.take_zero, nodesOf,
                  respNodes, List.append_nil, List.length_append] at hc'
                rw [← List.length_append] at hc'
                exact absurd hc' (by rw [hc]; simp)
          | true =>
              have hfl : fetchLoop max acc (Except.ok p :: rest) =
                  ((fetchLoop max (acc ++ p.nodes) rest).1,
                    (fetchLoop max (acc ++ p.nodes) rest).2 + 1) := by
                rw [fetchLoop, if_pos hc]
              obtain ⟨ih1, ih2, ih3, ih4, -⟩ := ih (acc ++ p.nodes)
              rw [hfl]
              refine ⟨Nat.succ_le_succ ih1, ?_, ?_, ?_, fun _ => Nat.succ_pos _⟩
              · simp only [List.take_succ_cons, nodesOf, respNodes]
                rw [ih2, List.append_assoc]
              · intro i hi
                cases i with
                | zero =>
                    refine ⟨p, rfl, ?_⟩
                    simp only [List.take_succ_cons, List.take_zero, nodesOf,
                      respNodes, List.append_nil]
                    rw [← List.length_append]
                    exact hc
                | succ k =>
                    rw [contAtFrom_cons_ok, ← List.length_append]
                    exact ih3 k (by omega)
              · intro hlt
                rw [List.length_cons] at hlt
                obtain ⟨j, hj, hnot⟩ := ih4 (by omega)
                refine ⟨j + 1, by omega, ?_⟩
                rw [contAtFrom_cons_ok, ← List.length_append]
                exact hnot

end PaginationLemmas

/-- Claim C4: the pagination loop of `get_issues_by_label` stops
exactly at the stop conditions: it never consumes more responses than
the server produces; its result is the nodes of the consumed prefix
(so an exception keeps the pages fetched before it); every response
strictly before the last consumed one satisfied the continue condition
(successful page, `hasNextPage` true, accumulated count below
`max_issues`); and whenever the loop stops with responses left over,
its last consumed response failed that condition — a request error, a
missing or false `hasNextPage`, or the count reaching `max_issues`. -/
theorem pagination_loop_stops (max : Nat) (resps : List PageResp) :
    pagesConsumed max resps ≤ resps.length ∧
    get_issues_by_label max resps =
      nodesOf (resps.take (pagesConsumed max resps)) ∧
    (∀ i, i + 1 < pagesConsumed max resps → contAt max resps i) ∧
    (pagesConsumed max resps < resps.length →
      ∃ j, pagesConsumed max resps = j + 1 ∧ ¬ contAt max resps j) ∧
    (resps ≠ [] → 0 < pagesConsumed max resps) := by
  obtain ⟨h1, h2, h3, h4, h5⟩ := fetchLoop_spec max resps []
  exact ⟨h1, by simpa using h2, h3, h4, h5⟩

/-- A page with one issue and a next page available. -/
def demoPageNext : Page := ⟨[issueA], ⟨some true, some "c1"⟩⟩

/-- A final page: one issue, `hasNextPage` false. -/
def demoPageLast : Page := ⟨[issueB], ⟨some false, none⟩⟩

/-- A concrete response sequence: a continuing page, then a final page,
then a page the loop must never request. -/
def demoResps : List PageResp :=
  [Except.ok demoPageNext, Except.ok demoPageLast, Except.ok demoPageNext]

/-- Witness for C4: on `demoResps` with `max_issues = 10` the loop
consumes two of the three responses, the first consumed response
satisfied the continue condition, and the loop's last consumed response
(the page reporting no next page) is the reason it stopped. -/
theorem pagination_loop_stops_witness :
    pagesConsumed 10 demoResps ≤ demoResps.length ∧
    contAt 10 demoResps 0 ∧
    (∃ j, pagesConsumed 10 demoResps = j + 1 ∧ ¬ contAt 10 demoResps j) ∧
    0 < pagesConsumed 10 demoResps := by
  obtain ⟨h1, _, h3, h4, h5⟩ := pagination_loop_stops 10 demoResps
  exact ⟨h1, h3 0 (by decide), h4 (by decide), h5 (List.cons_ne_nil _ _)⟩

/-- The page size the loop requests (lines 208 and 342):
`min(100, max_issues - len(all_issues))`, with `accLen` the accumulated
count at request time. -/
def requestedFirst (max accLen : Nat) : Nat := min 100 (max - accLen)

/-- A response sequence in which each successful page returns at most
the requested number of nodes, tracking the accumulated count the loop
would hold when requesting it. -/
def goodPages (max : Nat) : List PageResp → Nat → Prop
  | [], _ => True
  | .error _ :: rest, accLen => goodPages max rest accLen
  | .ok p :: rest, accLen =>
      p.nodes.length ≤ requestedFirst max accLen ∧
      goodPages max rest (accLen + p.nodes.length)

/-- Invariant: a loop whose accumulator is within the quota stays
within it as long as pages honour the requested size. -/
lemma fetchLoop_length_le (max : Nat) :
    ∀ (resps : List PageResp) (acc : List Issue),
      acc.length ≤ max → goodPages max resps acc.length →
      (fetchLoop max acc resps).1.length ≤ max := by
  intro resps
  induction resps with
  | nil => intro acc hacc _; simpa [fetchLoop] using hacc
  | cons r rest ih =>
      intro acc hacc hgood
      cases r with
      | error e => simpa [fetchLoop] using hacc
      | ok p =>
          rw [goodPages] at hgood
          obtain ⟨hp, hrest⟩ := hgood
          have hacc2 : (acc ++ p.nodes).length ≤ max := by
            rw [List.length_append]
            have hmin : requestedFirst max acc.length ≤ max - acc.length :=
              Nat.min_le_right _ _
            omega
          cases hc : contApi max (acc ++ p.nodes).length p with
          | false =>
              rw [fetchLoop, if_neg (by rw [hc]; simp)]
              exact hacc2
          | true =>
              rw [fetchLoop, if_pos hc]
              exact ih (acc ++ p.nodes) hacc2
                (by rw [List.length_append]; exact hrest)

/-- Claim C8: whenever every server page returns at most the requested
`min(100, max_issues - len(all_issues))` nodes, the issue lists
returned by `get_issues_by_label` and `get_issues_from_view` never
exceed `max_issues`. -/
theorem fetched_issue_count_bounded (max : Nat) (view : Option NamedObj)
    (resps : List PageResp) (hgood : goodPages max resps 0) :
    (get_issues_by_label max resps).length ≤ max ∧
    (get_issues_from_view view max resps).length ≤ max := by
  have h := fetchLoop_length_le max resps [] (Nat.zero_le _) hgood
  refine ⟨h, ?_⟩
  cases view with
  | none => simp [get_issues_from_view]
  | some v => exact h

/-- Witness for C8: a one-page run with `max_issues = 5`. -/
theorem fetched_issue_count_bounded_witness :
    (get_issues_by_label 5 [Except.ok demoPageLast]).length ≤ 5 ∧
    (get_issues_from_view (some ⟨none⟩) 5 [Except.ok demoPageLast]).length ≤ 5 :=
  fetched_issue_count_bounded 5 (some ⟨none⟩) [Except.ok demoPageLast]
    (by rw [goodPages]; exact ⟨by decide, trivial⟩)

/-! ## The local API server (api_server.py)

Each handler becomes a pure function from its request data and the
outcome of its one external effect (the GraphQL POST, the glob, the
subprocess, the file read) to the response it writes.  Alongside the
response, each handler reports how many GraphQL requests it issued to
the external API, so that call-count claims can be stated. -/

/-- A minimal JSON value, enough for the bodies the server writes. -/
inductive Json where
  | jNull
  | jBool (b : Bool)
  | jStr (s : String)
  | jArr (xs : List Json)
  | jObj (fields : List (String × Json))

/-- `json.dumps({'error': msg})`. -/
def errObj (s : String) : Json := .jObj [("error", .jStr s)]

/-- An HTTP response the handler writes: status code and JSON body. -/
structure Resp where
  status : Nat
  body : Json

/-- A handler's observable outcome: the response written and the number
of GraphQL requests issued to the external API. -/
structure HOut where
  resp : Resp
  calls : Nat

/-- The external API's parsed response body: `result['errors']` when
present, and `result['data']` (absent `data` raises a KeyError). -/
structure ApiResult where
  errors : Option Json
  data : Option Json

/-- The outcome of `requests.post(...)` followed by `response.json()`:
a parsed body, or a raised exception (network failure, bad JSON, ...). -/
abbrev ApiCall := Except String ApiResult

/-- The response-processing block repeated verbatim in the four proxy
handlers (e.g. lines 110-122): an `errors` field becomes a 400 with a
JSON error body; otherwise `result['data']` is returned with 200; a
raised exception — including a KeyError on a missing `data` — is
caught by the handler's broad `except` and reported as a 500 whose
body carries the exception text. -/
def apiPhase (api : ApiCall) : Resp :=
  match api with
  | .error e => ⟨500, errObj e⟩
  | .ok r =>
      match r.errors with
      | some errs => ⟨400, Json.jObj [("error", errs)]⟩
      | none =>
          match r.data with
          | some d => ⟨200, d⟩
          | none => ⟨500, errObj "KeyError: data"⟩

/-- The parsed POST body of the label mutations: `data.get('issueId')`
and `data.get('labelId')` (`none` covers an absent or null key). -/
structure LabelReq where
  issueId : Option String
  labelId : Option String
deriving DecidableEq, Repr

/-- Python truthiness of the optional ids: `None` and `''` are falsy. -/
def strFalsy : Option String → Bool
  | none => true
  | some s => decide (s = "")

/-- Reading and parsing the POST body
(`int(self.headers['Content-Length'])`, `self.rfile.read`,
`json.loads`), any step of which can raise. -/
abbrev ReqParse := Except String LabelReq

/-- `handle_add_label` (api_server.py lines 59-122). -/
def handle_add_label (req : ReqParse) (api : ApiCall) : HOut :=
  match req with
  | .error e => ⟨⟨500, errObj e⟩, 0⟩
  | .ok d =>
      if strFalsy d.issueId || strFalsy d.labelId then
        ⟨⟨400, errObj "Missing issueId or labelId"⟩, 0⟩
      else ⟨apiPhase api, 1⟩

/-- `handle_remove_label` (lines 124-187): identical control flow, with
the remove mutation as the one GraphQL call. -/
def handle_remove_label (req : ReqParse) (api : ApiCall) : HOut :=
  match req with
  | .error e => ⟨⟨500, errObj e⟩, 0⟩
  | .ok d =>
      if strFalsy d.issueId || strFalsy d.labelId then
        ⟨⟨400, errObj "Missing issueId or labelId"⟩, 0⟩
      else ⟨apiPhase api, 1⟩

/-- The parsed POST body of the label listing: `data.get('teamId')`. -/
structure TeamReq where
  teamId : Option String
deriving DecidableEq, Repr

/-- `handle_get_available_labels` (lines 189-257): `teamId` only picks
which of the two queries is sent; either way one GraphQL call is made
and its response goes through the shared errors/data handling. -/
def handle_get_available_labels (req : Except String TeamReq)
    (api : ApiCall) : HOut :=
  match req with
  | .error e => ⟨⟨500, errObj e⟩, 0⟩
  | .ok _ => ⟨apiPhase api, 1⟩

/-- `handle_get_issue_labels` (lines 259-312): `issueId` comes from the
query string via `params.get('issueId', [None])[0]`. -/
def handle_get_issue_labels (issueId : Option String) (api : ApiCall) : HOut :=
  if strFalsy issueId then ⟨⟨400, errObj "Missing issueId"⟩, 0⟩
  else ⟨apiPhase api, 1⟩

/-- Stable insertion into a list already sorted by mtime descending. -/
def insertByMtime (x : String × Nat) :
    List (String × Nat) → List (String × Nat)
  | [] => [x]
  | y :: ys => if x.2 ≥ y.2 then x :: y :: ys else y :: insertByMtime x ys

/-- `json_files.sort(key=os.path.getmtime, reverse=True)`: a stable
sort by modification time, most recent first. -/
def sortByMtime : List (String × Nat) → List (String × Nat)
  | [] => []
  | x :: xs => insertByMtime x (sortByMtime xs)

/-- `handle_get_latest_json` (lines 314-337): the glob result is the
input, a file being its basename paired with its mtime; an OS error
while globbing or stat-ing is the `Except.error` case. -/
def handle_get_latest_json
    (files : Except String (List (String × Nat))) : HOut :=
  match files with
  | .error e => ⟨⟨500, errObj e⟩, 0⟩
  | .ok [] => ⟨⟨404, errObj "No data files found"⟩, 0⟩
  | .ok (f :: fs) =>
      ⟨⟨200, Json.jObj [("filename",
        Json.jStr ((sortByMtime (f :: fs)).headD f).1)]⟩, 0⟩

/-- The outcome of `subprocess.run([sys.executable, script_path], ...)`. -/
inductive RunOutcome where
  | completed (returncode : Int) (stdout stderr : String)
  | timedOut
  | failed (e : String)

/-- `handle_refresh_data` (lines 338-393): shells out to the fetch
script; the server itself issues no GraphQL request here. -/
def handle_refresh_data (run : RunOutcome) : HOut :=
  match run with
  | .completed rc out err =>
      if rc = 0 then
        ⟨⟨200, Json.jObj [("success", .jBool true),
          ("message", .jStr "Data refreshed successfully"),
          ("output", .jStr out)]⟩, 0⟩
      else
        ⟨⟨500, Json.jObj [("success", .jBool false),
          ("error", .jStr ("Script failed: " ++ err)),
          ("output", .jStr out)]⟩, 0⟩
  | .timedOut =>
      ⟨⟨500, Json.jObj [("success", .jBool false),
        ("error", .jStr "Script execution timed out (60s)")]⟩, 0⟩
  | .failed e =>
      ⟨⟨500, Json.jObj [("success", .jBool false),
        ("error", .jStr e)]⟩, 0⟩

/-- The outcome of resolving and reading the requested static file. -/
inductive StaticOutcome where
  | forbidden
  | notFound
  | found (contentType : String) (content : String)
  | errored (e : String)

/-- A plain (non-JSON) HTTP response. -/
structure RawResp where
  status : Nat
  contentType : String
  content : String

/-- `serve_static_file` (lines 395-436); the pair's second component
counts GraphQL calls (always zero here). -/
def serve_static_file (st : StaticOutcome) : RawResp × Nat :=
  match st with
  | .forbidden => (⟨403, "text/plain", "Forbidden"⟩, 0)
  | .notFound => (⟨404, "text/html", "<h1>404 Not Found</h1>"⟩, 0)
  | .found ct c => (⟨200, ct, c⟩, 0)
  | .errored e => (⟨500, "text/plain", "Internal Server Error: " ++ e⟩, 0)

/-- Claim C9: a label-mutation request whose body lacks `issueId` or
`labelId` (missing, null, or empty) is answered 400 with the JSON body
`{'error': 'Missing issueId or labelId'}` and no GraphQL request is
issued. -/
theorem missing_label_fields_rejected (d : LabelReq) (api : ApiCall)
    (h : (strFalsy d.issueId || strFalsy d.labelId) = true) :
    handle_add_label (.ok d) api =
      ⟨⟨400, errObj "Missing issueId or labelId"⟩, 0⟩ ∧
    handle_remove_label (.ok d) api =
      ⟨⟨400, errObj "Missing issueId or labelId"⟩, 0⟩ := by
  constructor
  · rw [handle_add_label, if_pos h]
  · rw [handle_remove_label, if_pos h]

/-- Witness for C9: a body with a null `issueId`. -/
theorem missing_label_fields_rejected_witness :
    handle_add_label (.ok ⟨none, some "lbl"⟩) (.error "never sent") =
      ⟨⟨400, errObj "Missing issueId or labelId"⟩, 0⟩ ∧
    handle_remove_label (.ok ⟨none, some "lbl"⟩) (.error "never sent") =
      ⟨⟨400, errObj "Missing issueId or labelId"⟩, 0⟩ :=
  missing_label_fields_rejected ⟨none, some "lbl"⟩ (.error "never sent") rfl

/-- Claim C5: on every label-management or lookup request, a GraphQL
`errors` field in the external API's response is surfaced as HTTP 400
(a 4xx status) with the JSON body `{'error': errors}`, and every other
exception — body parsing or the request itself — is caught and
reported as HTTP 500 with the exception text in the JSON error body. -/
theorem api_errors_surfaced :
    (∀ (d : LabelReq) (api : ApiCall) (r : ApiResult) (errs : Json),
      strFalsy d.issueId = false → strFalsy d.labelId = false →
      api = Except.ok r → r.errors = some errs →
      (handle_add_label (.ok d) api).resp =
        ⟨400, Json.jObj [("error", errs)]⟩ ∧
      (handle_remove_label (.ok d) api).resp =
        ⟨400, Json.jObj [("error", errs)]⟩) ∧
    (∀ (t : TeamReq) (api : ApiCall) (r : ApiResult) (errs : Json),
      api = Except.ok r → r.errors = some errs →
      (handle_get_available_labels (.ok t) api).resp =
        ⟨400, Json.jObj [("error", errs)]⟩) ∧
    (∀ (qid : Option String) (api : ApiCall) (r : ApiResult) (errs : Json),
      strFalsy qid = false → api = Except.ok r → r.errors = some errs →
      (handle_get_issue_labels qid api).resp =
        ⟨400, Json.jObj [("error", errs)]⟩) ∧
    (∀ (e : String) (api : ApiCall),
      (handle_add_label (.error e) api).resp = ⟨500, errObj e⟩ ∧
      (handle_remove_label (.error e) api).resp = ⟨500, errObj e⟩ ∧
      (handle_get_available_labels (.error e) api).resp = ⟨500, errObj e⟩) ∧
    (∀ (d : LabelReq) (e : String),
      strFalsy d.issueId = false → strFalsy d.labelId = false →
      (handle_add_label (.ok d) (.error e)).resp = ⟨500, errObj e⟩ ∧
      (handle_remove_label (.ok d) (.error e)).resp = ⟨500, errObj e⟩) ∧
    (∀ (t : TeamReq) (e : String),
      (handle_get_available_labels (.ok t) (.error e)).resp =
        ⟨500, errObj e⟩) ∧
    (∀ (qid : Option String) (e : String), strFalsy qid = false →
      (handle_get_issue_labels qid (.error e)).resp = ⟨500, errObj e⟩) := by
  refine ⟨?_, ?_, ?_, ?_, ?_, ?_, ?_⟩
  · intro d api r errs hi hl hapi herrs
    subst hapi
    constructor
    · rw [handle_add_label, if_neg (by rw [hi, hl]; simp), apiPhase, herrs]
    · rw [handle_remove_label, if_neg (by rw [hi, hl]; simp), apiPhase, herrs]
  · intro t api r errs hapi herrs
    subst hapi
    rw [handle_get_available_labels, apiPhase, herrs]
  · intro qid api r errs hq hapi herrs
    subst hapi
    rw [handle_get_issue_labels, if_neg (by rw [hq]; simp), apiPhase, herrs]
  · intro e api
    exact ⟨rfl, rfl, rfl⟩
  · intro d e hi hl
    constructor
    · rw [handle_add_label, if_neg (by rw [hi, hl]; simp)]; rfl
    · rw [handle_remove_label, if_neg (by rw [hi, hl]; simp)]; rfl
  · intro t e
    rfl
  · intro qid e hq
    rw [handle_get_issue_labels, if_neg (by rw [hq]; simp)]; rfl

/-- Witness for C5: a GraphQL error surfaced as 400 on a valid
add-label request, and a network failure surfaced as 500 on a lookup. -/
theorem api_errors_surfaced_witness :
    (handle_add_label (.ok ⟨some "i", some "l"⟩)
        (.ok ⟨some (Json.jStr "boom"), none⟩)).resp =
      ⟨400, Json.jObj [("error", Json.jStr "boom")]⟩ ∧
    (handle_get_issue_labels (some "i") (.error "net down")).resp =
      ⟨500, errObj "net down"⟩ := by
  obtain ⟨h1, -, -, -, -, -, h7⟩ := api_errors_surfaced
  exact ⟨(h1 ⟨some "i", some "l"⟩ _ ⟨some (Json.jStr "boom"), none⟩
      (Json.jStr "boom") (by decide) (by decide) rfl rfl).1,
    h7 (some "i") "net down" (by decide)⟩

/-- Claim C6 counterexample: the latest-export discovery request is
served without any GraphQL call, so "exactly one GraphQL call per
request" fails. -/
theorem one_call_per_request_counterexample :
    (handle_get_latest_json (.ok [])).calls = 0 ∧
    (handle_get_latest_json (.ok [])).calls ≠ 1 :=
  ⟨rfl, by decide⟩

/-- Claim C6 (amended): per-request control flow is linear and each
handler issues at most one direct GraphQL call — exactly one as soon
as a label-management or lookup handler passes its input checks
(whether the call then succeeds, reports errors, or raises), and zero
for the latest-export discovery, data-refresh and static-file handlers
(the refresh handler shells out to the fetch script rather than
calling the API itself). -/
theorem one_graphql_call_per_proxy_request :
    (∀ (req : ReqParse) (api : ApiCall),
      (handle_add_label req api).calls ≤ 1 ∧
      (handle_remove_label req api).calls ≤ 1) ∧
    (∀ (req : Except String TeamReq) (api : ApiCall),
      (handle_get_available_labels req api).calls ≤ 1) ∧
    (∀ (qid : Option String) (api : ApiCall),
      (handle_get_issue_labels qid api).calls ≤ 1) ∧
    (∀ (d : LabelReq) (api : ApiCall),
      strFalsy d.issueId = false → strFalsy d.labelId = false →
      (handle_add_label (.ok d) api).calls = 1 ∧
      (handle_remove_label (.ok d) api).calls = 1) ∧
    (∀ (t : TeamReq) (api : ApiCall),
      (handle_get_available_labels (.ok t) api).calls = 1) ∧
    (∀ (qid : Option String) (api : ApiCall), strFalsy qid = false →
      (handle_get_issue_labels qid api).calls = 1) ∧
    (∀ files, (handle_get_latest_json files).calls = 0) ∧
    (∀ run, (handle_refresh_data run).calls = 0) ∧
    (∀ st, (serve_static_file st).2 = 0) := by
  refine ⟨?_, ?_, ?_, ?_, ?_, ?_, ?_, ?_, ?_⟩
  · intro req api
    constructor
    · cases req with
      | error e => exact Nat.zero_le 1
      | ok d =>
          rw [handle_add_label]
          split
          · exact Nat.zero_le 1
          · exact Nat.le_refl 1
    · cases req with
      | error e => exact Nat.zero_le 1
      | ok d =>
          rw [handle_remove_label]
          split
          · exact Nat.zero_le 1
          · exact Nat.le_refl 1
  · intro req api
    cases req with
    | error e => exact Nat.zero_le 1
    | ok t => exact Nat.le_refl 1
  · intro qid api
    rw [handle_get_issue_labels]
    split
    · exact Nat.zero_le 1
    · exact Nat.le_refl 1
  · intro d api hi hl
    constructor
    · rw [handle_add_label, if_neg (by rw [hi, hl]; simp)]
    · rw [handle_remove_label, if_neg (by rw [hi, hl]; simp)]
  · intro t api
    rfl
  · intro qid api hq
    rw [handle_get_issue_labels, if_neg (by rw [hq]; simp)]
  · intro files
    cases files with
    | error e => rfl
    | ok fs => cases fs with
      | nil => rfl
      | cons f fs => rfl
  · intro run
    cases run with
    | completed rc out err =>
        rw [handle_refresh_data]
        split <;> rfl
    | timedOut => rfl
    | failed e => rfl
  · intro st
    cases st <;> rfl

/-- Witness for C6 (amended): a validated add-label request makes one
call; a latest-export request makes none. -/
theorem one_graphql_call_per_proxy_request_witness :
    (handle_add_label (.ok ⟨some "i", some "l"⟩) (.error "boom")).calls = 1 ∧
    (handle_get_latest_json (.ok [])).calls = 0 := by
  obtain ⟨-, -, -, h4, -, -, h7, -, -⟩ := one_graphql_call_per_proxy_request
  exact ⟨(h4 ⟨some "i", some "l"⟩ (.error "boom") (by decide) (by decide)).1,
    h7 (.ok [])⟩

section LatestJsonLemmas

/-- A descending-by-mtime sort of a non-empty list starts with a member
of maximal modification time. -/
lemma sortByMtime_max :
    ∀ l : List (String × Nat), l ≠ [] →
      ∃ f fs', sortByMtime l = f :: fs' ∧ f ∈ l ∧ ∀ g ∈ l, g.2 ≤ f.2 := by
  intro l
  induction l with
  | nil => intro h; exact absurd rfl h
  | cons x xs ih =>
      intro _
      cases xs with
      | nil =>
          refine ⟨x, [], rfl, List.mem_singleton_self x, ?_⟩
          intro g hg
          rw [List.mem_singleton.1 hg]
      | cons y ys =>
          obtain ⟨f, fs', hs, hf, hmax⟩ := ih (List.cons_ne_nil _ _)
          have hsort : sortByMtime (x :: y :: ys) =
              insertByMtime x (sortByMtime (y :: ys)) := rfl
          by_cases hxf : x.2 ≥ f.2
          · refine ⟨x, f :: fs', ?_, List.mem_cons_self _ _, ?_⟩
            · rw [hsort, hs, insertByMtime, if_pos hxf]
            · intro g hg
              rcases List.mem_cons.1 hg with hgx | hgy
              · rw [hgx]
              · exact Nat.le_trans (hmax g hgy) hxf
          · refine ⟨f, insertByMtime x fs', ?_,
              List.mem_cons_of_mem _ hf, ?_⟩
            · rw [hsort, hs, insertByMtime, if_neg hxf]
            · intro g hg
              rcases List.mem_cons.1 hg with hgx | hgy
              · rw [hgx]; omega
              · exact hmax g hgy

end LatestJsonLemmas

/-- Claim C7: `handle_get_latest_json` answers 404 with a JSON error
body when no `linear_view_issues_*.json` file matches, and otherwise
200 with a body naming a matching file of greatest modification time
(the head of the descending stable sort). -/
theorem latest_json_endpoint_correct (files : List (String × Nat)) :
    (files = [] → handle_get_latest_json (.ok files) =
      ⟨⟨404, errObj "No data files found"⟩, 0⟩) ∧
    (files ≠ [] →
      (handle_get_latest_json (.ok files)).resp.status = 200 ∧
      ∃ f ∈ files, (handle_get_latest_json (.ok files)).resp.body =
          Json.jObj [("filename", Json.jStr f.1)] ∧
        ∀ g ∈ files, g.2 ≤ f.2) := by
  constructor
  · intro h; subst h; rfl
  · intro hne
    cases files with
    | nil => exact absurd rfl hne
    | cons x xs =>
        obtain ⟨f, fs', hs, hf, hmax⟩ :=
          sortByMtime_max (x :: xs) (List.cons_ne_nil _ _)
        have hhead : (sortByMtime (x :: xs)).headD x = f := by
          rw [hs]; rfl
        refine ⟨rfl, f, hf, ?_, hmax⟩
        show Json.jObj [("filename",
            Json.jStr ((sortByMtime (x :: xs)).headD x).1)] =
          Json.jObj [("filename", Json.jStr f.1)]
        rw [hhead]

/-- Witness for C7: with an older and a newer snapshot on disk, the
endpoint answers 200 and names the file with the larger mtime. -/
theorem latest_json_endpoint_correct_witness :
    (handle_get_latest_json
        (.ok [("old.json", 1), ("new.json", 5)])).resp.status = 200 ∧
    ∃ f ∈ ([("old.json", 1), ("new.json", 5)] : List (String × Nat)),
      (handle_get_latest_json
          (.ok [("old.json", 1), ("new.json", 5)])).resp.body =
        Json.jObj [("filename", Json.jStr f.1)] ∧
      ∀ g ∈ ([("old.json", 1), ("new.json", 5)] : List (String × Nat)),
        g.2 ≤ f.2 :=
  (latest_json_endpoint_correct [("old.json", 1), ("new.json", 5)]).2
    (List.cons_ne_nil _ _)
